import Mathlib

set_option maxHeartbeats 1000000
set_option maxRecDepth 4000

/-!
Verification of the response-normalization pipeline of `src/ML/app.py`
(LLM content validator).  The Python source is shallowly embedded:

* JSON values (`json.loads` results) become the inductive `Json`;
  numbers are modelled as integers only — no input exercised in this
  development contains a fractional number, and the embedded parser
  deliberately rejects fractions/exponents (documented at `parseJNumber`).
* `clean_model_text_and_extract_json` becomes
  `cleanModelTextAndExtractJson : Option String → Except String Json`
  (`none` models a non-string Python argument, `Except.error` models
  `raise ValueError(...)`).
* the sanitization block of the `validate` endpoint (lines 356-386)
  becomes `sanFields` / `validateTail`.
* `extract_text_from_response` is embedded over an explicit model of the
  opaquely-shaped SDK response object (`Resp`), in which `Attr.raising`
  models an attribute access that raises and `PyVal` lets a probed value
  be a truthy non-string (which strategy 1 returns unchecked).
-/

/-- JSON values as produced by Python's `json.loads`.  Numbers are modelled
as integers; fractional numbers never occur in any input considered here. -/
inductive Json where
  | null : Json
  | bool (b : Bool) : Json
  | num (n : Int) : Json
  | str (s : String) : Json
  | arr (elems : List Json) : Json
  | obj (fields : List (String × Json)) : Json

/-- Python truthiness `bool(x)` restricted to JSON values: `None`, `False`,
`0`, `""`, `[]`, `\x7b\x7d` are falsy, everything else truthy. -/
def truthy : Json → Bool
  | Json.null => false
  | Json.bool b => b
  | Json.num n => n != 0
  | Json.str s => s != ""
  | Json.arr l => !l.isEmpty
  | Json.obj l => !l.isEmpty

/-- Association-list lookup, modelling Python `dict.__getitem__` membership
probing; the embedded JSON parser keeps keys unique, so first-match lookup
agrees with `dict` semantics. -/
def lookupField : List (String × Json) → String → Option Json
  | [], _ => none
  | (k, v) :: rest, key => if k == key then some v else lookupField rest key

/-- Python `dict.get(key, default)`. -/
def getField (fields : List (String × Json)) (key : String) (dflt : Json) : Json :=
  (lookupField fields key).getD dflt

/-- Named characters used throughout the string-processing models. -/
def btick : Char := Char.ofNat 96

def lbrace : Char := Char.ofNat 123

def rbrace : Char := Char.ofNat 125

def bslash : Char := Char.ofNat 92

def dquote : Char := Char.ofNat 34

def squote : Char := Char.ofNat 39

/-- ASCII whitespace as stripped by Python `str.strip()` (the inputs in
this development contain no non-ASCII whitespace). -/
def isPyWs (c : Char) : Bool :=
  c = ' ' || c = Char.ofNat 9 || c = Char.ofNat 10 || c = Char.ofNat 13 ||
  c = Char.ofNat 11 || c = Char.ofNat 12

/-- Python `str.strip()`. -/
def pyStrip (s : String) : String :=
  String.mk (((s.toList.dropWhile isPyWs).reverse.dropWhile isPyWs).reverse)

/-- `begWith needle hay` is true when `needle` is an initial segment of
`hay` (used to model substring search of `re` / `in`). -/
def begWith : List Char → List Char → Bool
  | [], _ => true
  | _ :: _, [] => false
  | a :: as, b :: bs => a == b && begWith as bs

/-- `containsSub needle hay`: Python's `needle in hay` on strings. -/
def containsSub (needle : List Char) : List Char → Bool
  | [] => begWith needle []
  | c :: rest => begWith needle (c :: rest) || containsSub needle rest

/-- Split `hay` at the first occurrence of `needle`, returning the part
before it and the part after it; `none` when `needle` does not occur. -/
def chopAt (needle : List Char) : List Char → Option (List Char × List Char)
  | [] => if needle.isEmpty then some ([], []) else none
  | c :: rest =>
    if begWith needle (c :: rest) then some ([], (c :: rest).drop needle.length)
    else match chopAt needle rest with
      | some (b, a) => some (c :: b, a)
      | none => none

/-- UTF-8 bytes (as `Nat`) of one character, modelling Python
`str.encode('utf-8')`. -/
def utf8Bytes (c : Char) : List Nat :=
  let n := c.toNat
  if n < 128 then [n]
  else if n < 2048 then [192 + n / 64, 128 + n % 64]
  else if n < 65536 then [224 + n / 4096, 128 + (n / 64) % 64, 128 + n % 64]
  else [240 + n / 262144, 128 + (n / 4096) % 64, 128 + (n / 64) % 64, 128 + n % 64]

/-- Bytes of a string under UTF-8, read back as Latin-1 characters — the
view on which Python's `bytes.decode('unicode_escape')` operates (every
non-escape byte `b` decodes to the character with code point `b`). -/
def latin1View (s : String) : List Char :=
  ((s.toList.map utf8Bytes).flatten).map Char.ofNat

def isOctDigit (c : Char) : Bool := '0' ≤ c && c ≤ '7'

def octDigitVal (c : Char) : Nat := c.toNat - 48

def hexDigitVal : Char → Option Nat := fun c =>
  if '0' ≤ c && c ≤ '9' then some (c.toNat - 48)
  else if 'a' ≤ c && c ≤ 'f' then some (c.toNat - 87)
  else if 'A' ≤ c && c ≤ 'F' then some (c.toNat - 55)
  else none

/-- Read exactly `k` hex digits, accumulating into `acc`. -/
def grabHex : Nat → Nat → List Char → Option (Nat × List Char)
  | 0, acc, t => some (acc, t)
  | k + 1, acc, t =>
    match t with
    | [] => none
    | c :: t2 =>
      match hexDigitVal c with
      | some v => grabHex k (acc * 16 + v) t2
      | none => none

/-- Read up to two further octal digits after a first one. -/
def grabOct (v : Nat) : List Char → Nat × List Char
  | d2 :: t2 =>
    if isOctDigit d2 then
      match t2 with
      | d3 :: t3 =>
        if isOctDigit d3 then (v * 64 + octDigitVal d2 * 8 + octDigitVal d3, t3)
        else (v * 8 + octDigitVal d2, d3 :: t3)
      | [] => (v * 8 + octDigitVal d2, [])
    else (v, d2 :: t2)
  | [] => (v, [])

/-- One `unicode_escape` decoding pass over the Latin-1 view, modelling
CPython's `unicode_escape` codec: recognized simple escapes, octal, and
`\x`/`\u`/`\U` hex escapes; unrecognized escapes are kept literally; a
trailing backslash or a malformed hex escape is a decoding error (`none`).
Lone-surrogate results and `\N` name escapes (never exercised here) are
modelled as errors since Lean characters exclude surrogates. -/
def pyDec (fuel : Nat) (cs : List Char) : Option (List Char) :=
  match fuel with
  | 0 => none
  | fuel + 1 =>
    match cs with
    | [] => some []
    | c :: rest =>
      if c = bslash then
        match rest with
        | [] => none
        | e :: t =>
          if e = 'n' then (pyDec fuel t).map (fun l => Char.ofNat 10 :: l)
          else if e = 't' then (pyDec fuel t).map (fun l => Char.ofNat 9 :: l)
          else if e = 'r' then (pyDec fuel t).map (fun l => Char.ofNat 13 :: l)
          else if e = 'a' then (pyDec fuel t).map (fun l => Char.ofNat 7 :: l)
          else if e = 'b' then (pyDec fuel t).map (fun l => Char.ofNat 8 :: l)
          else if e = 'f' then (pyDec fuel t).map (fun l => Char.ofNat 12 :: l)
          else if e = 'v' then (pyDec fuel t).map (fun l => Char.ofNat 11 :: l)
          else if e = bslash then (pyDec fuel t).map (fun l => bslash :: l)
          else if e = squote then (pyDec fuel t).map (fun l => squote :: l)
          else if e = dquote then (pyDec fuel t).map (fun l => dquote :: l)
          else if e = Char.ofNat 10 then pyDec fuel t
          else if isOctDigit e then
            match grabOct (octDigitVal e) t with
            | (v, t2) => (pyDec fuel t2).map (fun l => Char.ofNat v :: l)
          else if e = 'x' then
            match grabHex 2 0 t with
            | some (v, t2) => (pyDec fuel t2).map (fun l => Char.ofNat v :: l)
            | none => none
          else if e = 'u' then
            match grabHex 4 0 t with
            | some (v, t2) =>
              if 55296 ≤ v && v < 57344 then none
              else (pyDec fuel t2).map (fun l => Char.ofNat v :: l)
            | none => none
          else if e = 'U' then
            match grabHex 8 0 t with
            | some (v, t2) =>
              if (55296 ≤ v && v < 57344) || v > 1114111 then none
              else (pyDec fuel t2).map (fun l => Char.ofNat v :: l)
            | none => none
          else if e = 'N' then none
          else (pyDec fuel t).map (fun l => bslash :: e :: l)
      else (pyDec fuel rest).map (fun l => c :: l)

/-- Python `s.encode('utf-8').decode('unicode_escape')` (line 216/237 of
`app.py`): `none` models the decode raising. -/
def pyUnicodeEscape (s : String) : Option String :=
  let cs := latin1View s
  (pyDec (cs.length + 1) cs).map (fun l => String.mk l)

/-- Lines 218-219 of `app.py`: strip one pair of surrounding double quotes
when the text both starts and ends with one. -/
def stripWrappingQuotes (u : String) : String :=
  if begWith [dquote] u.toList && begWith [dquote] u.toList.reverse then
    String.mk ((u.toList.drop 1).dropLast)
  else u

/-- The over-escaping marker test on line 215 of `app.py`:
`r'\"' in s or r'\\n' in s or r'\\\"' in s`, i.e. the two-character
substring backslash-quote, or the three-character substrings
backslash-backslash-n / backslash-backslash-quote. -/
def markerCode (s : String) : Bool :=
  containsSub [bslash, dquote] s.toList ||
  containsSub [bslash, bslash, 'n'] s.toList ||
  containsSub [bslash, bslash, dquote] s.toList

/-- Stage 2 of the recovery pipeline (lines 212-223 of `app.py`): when the
marker test fires, attempt one unescape pass, strip wrapping quotes, and
keep the pre-unescape text when unescaping raises. -/
def escapeNormalize (s : String) : String :=
  if markerCode s then
    match pyUnicodeEscape s with
    | some u => stripWrappingQuotes u
    | none => s
  else s

/-- The escape-normalization marker as the spec words it: a literal
backslash-quote sequence or a literal backslash-n sequence. -/
def markerSpec (s : String) : Bool :=
  containsSub [bslash, dquote] s.toList || containsSub [bslash, 'n'] s.toList

/-- The spec's description of what an attempt of the escape-normalization
stage does: one unescape pass, strip one pair of wrapping quotes, and keep
the pre-unescape text when unescaping throws. -/
def escapeNormalizeStepSpec (s : String) : String :=
  match pyUnicodeEscape s with
  | some u => stripWrappingQuotes u
  | none => s

/-- The three-backtick fence delimiter. -/
def fenceNeedle : List Char := [btick, btick, btick]

/-- Consume an optional case-insensitive `json` language tag directly
after the opening fence (the `(?:json)?` part of the regex on line 208). -/
def stripJsonTag : List Char → List Char
  | a :: b :: c :: d :: t =>
    if a.toLower = 'j' && b.toLower = 's' && c.toLower = 'o' && d.toLower = 'n' then t
    else a :: b :: c :: d :: t
  | l => l

/-- Stage 1 of the recovery pipeline (lines 207-210 of `app.py`): the
leftmost match of the fence regex keeps the trimmed content between the
first opening triple backtick and the next closing one; no match when no
closed fence exists. -/
def extractFence (s : String) : Option String :=
  match chopAt fenceNeedle s.toList with
  | none => none
  | some (_, afterOpen) =>
    match chopAt fenceNeedle (stripJsonTag afterOpen) with
    | none => none
    | some (inner, _) => some (pyStrip (String.mk inner))

/-- JSON whitespace skipping, as in `json.loads`. -/
def skipWs : List Char → List Char
  | c :: t =>
    if c = ' ' || c = Char.ofNat 9 || c = Char.ofNat 10 || c = Char.ofNat 13 then skipWs t
    else c :: t
  | [] => []

/-- Parse the remainder of a JSON string literal (opening quote already
consumed), with the strict-mode escape rules of `json.loads`: the short
escapes, `\uXXXX`, no raw control characters.  Surrogate escapes (never
exercised here) are modelled as parse errors. -/
def parseJStrAux (fuel : Nat) (acc : List Char) (cs : List Char) :
    Option (String × List Char) :=
  match fuel with
  | 0 => none
  | fuel + 1 =>
    match cs with
    | [] => none
    | c :: t =>
      if c = dquote then some (String.mk acc.reverse, t)
      else if c = bslash then
        match t with
        | [] => none
        | e :: t2 =>
          if e = dquote then parseJStrAux fuel (dquote :: acc) t2
          else if e = bslash then parseJStrAux fuel (bslash :: acc) t2
          else if e = '/' then parseJStrAux fuel ('/' :: acc) t2
          else if e = 'b' then parseJStrAux fuel (Char.ofNat 8 :: acc) t2
          else if e = 'f' then parseJStrAux fuel (Char.ofNat 12 :: acc) t2
          else if e = 'n' then parseJStrAux fuel (Char.ofNat 10 :: acc) t2
          else if e = 'r' then parseJStrAux fuel (Char.ofNat 13 :: acc) t2
          else if e = 't' then parseJStrAux fuel (Char.ofNat 9 :: acc) t2
          else if e = 'u' then
            match grabHex 4 0 t2 with
            | some (v, t3) =>
              if 55296 ≤ v && v < 57344 then none
              else parseJStrAux fuel (Char.ofNat v :: acc) t3
            | none => none
          else none
      else if c.toNat < 32 then none
      else parseJStrAux fuel (c :: acc) t

/-- Parse a JSON integer (`json.loads` number grammar less the fraction
and exponent parts, which are deliberately unmodelled: an input with a
fraction or exponent is a parse failure in this embedding, and no input in
this development has one). -/
def parseJNumber (cs : List Char) : Option (Int × List Char) :=
  let neg := begWith ['-'] cs
  let cs1 := if neg then cs.drop 1 else cs
  match cs1 with
  | [] => none
  | c :: t =>
    if !c.isDigit then none
    else
      let digits := if c = '0' then ([c], t) else ((c :: t).takeWhile Char.isDigit, (c :: t).dropWhile Char.isDigit)
      match digits with
      | (ds, rest) =>
        match rest with
        | r :: _ =>
          if r = '.' || r = 'e' || r = 'E' then none
          else
            let v : Int := Int.ofNat (ds.foldl (fun a d => a * 10 + (d.toNat - 48)) 0)
            some (if neg then -v else v, rest)
        | [] =>
          let v : Int := Int.ofNat (ds.foldl (fun a d => a * 10 + (d.toNat - 48)) 0)
          some (if neg then -v else v, rest)

/-- Insert a parsed object member, with `dict` duplicate-key semantics
(later value wins, original position kept). -/
def insertField (fields : List (String × Json)) (k : String) (v : Json) :
    List (String × Json) :=
  if (lookupField fields k).isSome then
    fields.map (fun p => if p.1 == k then (k, v) else p)
  else fields ++ [(k, v)]

mutual

/-- Parse one JSON value after optional whitespace (`json.loads` grammar,
integers only). -/
def parseValue : Nat → List Char → Option (Json × List Char)
  | 0, _ => none
  | fuel + 1, cs =>
    match skipWs cs with
    | [] => none
    | c :: t =>
      if c = dquote then (parseJStrAux (t.length + 1) [] t).map (fun p => (Json.str p.1, p.2))
      else if c = lbrace then parseObjBody fuel t
      else if c = '[' then parseArrBody fuel t
      else if begWith ['t', 'r', 'u', 'e'] (c :: t) then some (Json.bool true, (c :: t).drop 4)
      else if begWith ['f', 'a', 'l', 's', 'e'] (c :: t) then some (Json.bool false, (c :: t).drop 5)
      else if begWith ['n', 'u', 'l', 'l'] (c :: t) then some (Json.null, (c :: t).drop 4)
      else if c = '-' || c.isDigit then (parseJNumber (c :: t)).map (fun p => (Json.num p.1, p.2))
      else none

/-- Parse an object body after the opening brace. -/
def parseObjBody : Nat → List Char → Option (Json × List Char)
  | 0, _ => none
  | fuel + 1, cs =>
    match skipWs cs with
    | [] => none
    | c :: t =>
      if c = rbrace then some (Json.obj [], t)
      else parseObjMembers fuel [] (c :: t)

/-- Parse `"key": value (, "key": value)* \x7d` members. -/
def parseObjMembers : Nat → List (String × Json) → List Char → Option (Json × List Char)
  | 0, _, _ => none
  | fuel + 1, acc, cs =>
    match skipWs cs with
    | [] => none
    | c :: t =>
      if c = dquote then
        match parseJStrAux (t.length + 1) [] t with
        | none => none
        | some (key, rest) =>
          match skipWs rest with
          | ':' :: rest2 =>
            match parseValue fuel rest2 with
            | none => none
            | some (v, rest3) =>
              let acc2 := insertField acc key v
              match skipWs rest3 with
              | ',' :: rest4 => parseObjMembers fuel acc2 rest4
              | d :: rest4 =>
                if d = rbrace then some (Json.obj acc2, rest4) else none
              | [] => none
          | _ => none
      else none

/-- Parse an array body after the opening bracket. -/
def parseArrBody : Nat → List Char → Option (Json × List Char)
  | 0, _ => none
  | fuel + 1, cs =>
    match skipWs cs with
    | [] => none
    | c :: t =>
      if c = ']' then some (Json.arr [], t)
      else parseArrItems fuel [] (c :: t)

/-- Parse `value (, value)* ]` items. -/
def parseArrItems : Nat → List Json → List Char → Option (Json × List Char)
  | 0, _, _ => none
  | fuel + 1, acc, cs =>
    match parseValue fuel cs with
    | none => none
    | some (v, rest) =>
      let acc2 := acc ++ [v]
      match skipWs rest with
      | ',' :: rest2 => parseArrItems fuel acc2 rest2
      | ']' :: rest2 => some (Json.arr acc2, rest2)
      | _ => none

end

/-- Python `json.loads` (integers-only model): parse one value and require
only whitespace to remain. -/
def jsonParse (s : String) : Option Json :=
  let cs := s.toList
  match parseValue (3 * cs.length + 3) cs with
  | some (j, rest) => if (skipWs rest).isEmpty then some j else none
  | none => none

/-- Collect characters up to and including the first closing brace. -/
def upToClose : List Char → Option (List Char)
  | [] => none
  | c :: t =>
    if c = rbrace then some [c]
    else (upToClose t).map (fun l => c :: l)

/-- The brace-scan regex of line 232, `re.search` with a non-greedy body:
the leftmost-then-shortest match runs from the first opening brace to the
first closing brace after it (`none` when no such span exists — in
particular whenever no opening brace is followed by a closing one). -/
def braceScan : List Char → Option (List Char)
  | [] => none
  | c :: t =>
    if c = lbrace then (upToClose t).map (fun l => c :: l)
    else braceScan t

/-- Named HTML entities recognized by the `html.unescape` model.  Only a
representative finite table is embedded (no input in this development
contains an entity); unknown entities are kept literally, as in Python. -/
def entityTable : List (List Char × Char) :=
  [(['a', 'm', 'p', ';'], '&'),
   (['l', 't', ';'], '<'),
   (['g', 't', ';'], '>'),
   (['q', 'u', 'o', 't', ';'], dquote),
   (['a', 'p', 'o', 's', ';'], squote),
   (['#', '3', '9', ';'], squote),
   (['#', '3', '4', ';'], dquote)]

/-- Find the first table entity that is a prefix of the text after `&`. -/
def findEntity : List (List Char × Char) → List Char → Option (Char × List Char)
  | [], _ => none
  | (pat, r) :: restTable, cs =>
    if begWith pat cs then some (r, cs.drop pat.length)
    else findEntity restTable cs

/-- One `html.unescape` pass (line 245 of `app.py`). -/
def htmlUn (fuel : Nat) (cs : List Char) : List Char :=
  match fuel with
  | 0 => cs
  | fuel + 1 =>
    match cs with
    | [] => []
    | c :: t =>
      if c = '&' then
        match findEntity entityTable t with
        | some (r, t2) => r :: htmlUn fuel t2
        | none => c :: htmlUn fuel t
      else c :: htmlUn fuel t

/-- Python `html.unescape` over the embedded entity table. -/
def htmlUnescape (s : String) : String :=
  String.mk (htmlUn (s.toList.length + 1) s.toList)

/-- Stages 0-2 of `clean_model_text_and_extract_json`: strip, fenced-block
extraction, escape normalization (lines 205-223 of `app.py`). -/
def preprocess (t : String) : String :=
  let s := pyStrip t
  let s1 := match extractFence s with
    | some inner => inner
    | none => s
  escapeNormalize s1

/-- `clean_model_text_and_extract_json` (lines 195-249 of `app.py`).
The argument `none` models a non-string Python value; `Except.error`
models `raise ValueError(...)` (the `RecoveryError` of the spec), with the
source's message (the parse diagnostic interpolated on line 247 is elided
from the message). -/
def cleanModelTextAndExtractJson : Option String → Except String Json
  | none => Except.error "Empty or non-string model output"
  | some t =>
    if t = "" then Except.error "Empty or non-string model output"
    else
      let s := preprocess t
      match jsonParse s with
      | some j => Except.ok j
      | none =>
        match braceScan s.toList with
        | none => Except.error "Unable to extract JSON object from model output"
        | some cand =>
          let candidate := String.mk cand
          let candidateClean :=
            match pyUnicodeEscape candidate with
            | some u => u
            | none => candidate
          match jsonParse candidateClean with
          | some j => Except.ok j
          | none =>
            match jsonParse (htmlUnescape candidateClean) with
            | some j => Except.ok j
            | none => Except.error "Failed to parse JSON candidate"

/-- The four recognized moderation flag names, in the order of the dict
literal on lines 373-378 of `app.py`. -/
def fourFlagNames : List String := ["inappropriate", "spam", "advertisement", "mismatch"]

/-- Line 362+364-365 of `app.py`: `flags_val = parsed_json.get("flags", \x7b\x7d)`
coerced to the empty dict when not a dict. -/
def flagsVal (fields : List (String × Json)) : List (String × Json) :=
  match getField fields "flags" (Json.obj []) with
  | Json.obj l => l
  | _ => []

/-- Lines 373-378 of `app.py`: the sanitized flags dict. -/
def flagFields (fields : List (String × Json)) : List (String × Json) :=
  [("inappropriate", Json.bool (truthy (getField (flagsVal fields) "inappropriate" (Json.bool false)))),
   ("spam", Json.bool (truthy (getField (flagsVal fields) "spam" (Json.bool false)))),
   ("advertisement", Json.bool (truthy (getField (flagsVal fields) "advertisement" (Json.bool false)))),
   ("mismatch", Json.bool (truthy (getField (flagsVal fields) "mismatch" (Json.bool false))))]

/-- Lines 363+366-367 of `app.py`: `suggested_raw`, coerced to the empty
list when not a list. -/
def suggestedRaw (fields : List (String × Json)) : List Json :=
  match getField fields "suggestedTags" (Json.arr []) with
  | Json.arr l => l
  | _ => []

/-- The element filter of line 370 of `app.py`: keep a string member of
the effective tag list, drop everything else. -/
def pickTag (tags : List String) : Json → Option String
  | Json.str s => if tags.contains s then some s else none
  | _ => none

/-- Line 370 of `app.py`: `[t for t in suggested_raw if isinstance(t, str)
and t in allowed_tags]`. -/
def sanitizeSuggested (tags : List String) (fields : List (String × Json)) : List String :=
  (suggestedRaw fields).filterMap (pickTag tags)

/-- Lines 360-384 of `app.py`: the sanitized decision object built by the
`validate` endpoint from a recovered JSON dict (`fields`), less the
`raw_llm` member, which depends only on the extracted text and is modelled
separately in `validateResponse`. -/
def sanFields (tags : List String) (fields : List (String × Json)) : List (String × Json) :=
  [("allowed", Json.bool (truthy (getField fields "allowed" (Json.bool false)))),
   ("reason", getField fields "reason" Json.null),
   ("flags", Json.obj (flagFields fields)),
   ("suggestedTags", Json.arr ((sanitizeSuggested tags fields).map Json.str))]

/-- Lines 380-386 of `app.py`: the full response dict, including
`raw_llm.raw`, the extracted text truncated to 4000 characters. -/
def validateResponse (tags : List String) (textOut : String)
    (fields : List (String × Json)) : List (String × Json) :=
  sanFields tags fields ++ [("raw_llm", Json.obj [("raw", Json.str (String.mk (textOut.toList.take 4000)))])]

/-- Lines 349-386 of `app.py`: the endpoint tail from JSON recovery on, as
a function of the extracted text.  `Except.error (code, detail)` models
`raise HTTPException(status_code=code, detail=detail)`. -/
def validateTail (tags : List String) (textOut : String) :
    Except (Nat × String) (List (String × Json)) :=
  match cleanModelTextAndExtractJson (some textOut) with
  | Except.error _ =>
    Except.error (500, "LLM returned non-JSON output. Raw (truncated): " ++ String.mk (textOut.toList.take 1000))
  | Except.ok j =>
    match j with
    | Json.obj fields => Except.ok (validateResponse tags textOut fields)
    | _ => Except.error (500, "LLM returned JSON that is not an object")

/-- The built-in fallback tag list (lines 49-54 of `app.py`). -/
def DEFAULT_TAGS : List String :=
  ["Wifi", "Network", "Cleanliness", "Plumbing", "Electrical", "Lighting",
   "Safety", "Security", "Maintenance", "Sanitation", "Structural",
   "Accessibility", "HVAC", "Pest Control", "Gardening", "Transport",
   "Signage", "Fire Safety", "Other"]

/-- Lines 286-288 of `app.py`: the effective tag list of a request.
`reqTags = none` models `allowedTags` absent from the request; Python's
`or` makes an empty caller list fall back to the process-wide list before
filtering, and an empty filter result falls back afterwards. -/
def effectiveTags (predefined : List String) (reqTags : Option (List String)) : List String :=
  let base := match reqTags with
    | none => predefined
    | some l => if l.isEmpty then predefined else l
  let filtered := base.filter (fun t => predefined.contains t)
  if filtered.isEmpty then predefined else filtered

/-- The effective tag set as the spec words it: the intersection of the
caller-supplied tags (when provided) with the process-wide set, falling
back to the full process-wide set when that intersection is empty. -/
def effectiveTagsSpec (predefined : List String) (reqTags : Option (List String)) : List String :=
  match reqTags with
  | none => predefined
  | some l =>
    let inter := l.filter (fun t => predefined.contains t)
    if inter.isEmpty then predefined else inter

/-- A finite fragment of the platform `mimetypes` table (extension,
without dot, mapped to MIME type); entries beyond it behave as unknown
extensions. -/
def mimeTable : List (String × String) :=
  [("jpg", "image/jpeg"), ("jpeg", "image/jpeg"), ("jpe", "image/jpeg"),
   ("png", "image/png"), ("gif", "image/gif"), ("bmp", "image/bmp"),
   ("webp", "image/webp"), ("svg", "image/svg+xml"), ("tiff", "image/tiff"),
   ("tif", "image/tiff"), ("ico", "image/vnd.microsoft.icon"),
   ("pdf", "application/pdf"), ("txt", "text/plain"), ("html", "text/html"),
   ("htm", "text/html"), ("json", "application/json"), ("csv", "text/csv"),
   ("mp4", "video/mp4"), ("mp3", "audio/mpeg"), ("zip", "application/zip")]

/-- Characters after the last occurrence of `sep` (the whole list when
`sep` does not occur). -/
def afterLast (sep : Char) (cs : List Char) : List Char :=
  cs.foldl (fun acc c => if c = sep then ([] : List Char) else acc ++ [c]) []

/-- The extension (without dot) that `os.path.splitext` inside
`mimetypes.guess_type` extracts from a URL: the part of the basename after
its last dot, where a dot leading the basename does not start an
extension. -/
def extOf (url : String) : Option String :=
  match afterLast '/' url.toList with
  | [] => none
  | c0 :: rest =>
    if rest.contains '.' then some (String.mk (afterLast '.' (c0 :: rest)))
    else none

/-- `mimetypes.guess_type`, over the embedded table, with the lowercasing
that the stdlib applies to the extension. -/
def guessType (url : String) : Option String :=
  match extOf url with
  | none => none
  | some e => mimeTable.lookup (String.mk (e.toList.map Char.toLower))

/-- `guess_mime_from_url` (lines 251-257 of `app.py`). -/
def guess_mime_from_url (url : String) : String :=
  if url = "" then "image/jpeg"
  else
    match guessType url with
    | some m => if begWith "image/".toList m.toList then m else "image/jpeg"
    | none => "image/jpeg"

/-- A defensively probed Python attribute (or dict key): `absent` models a
missing attribute (or a `None` placeholder), `raising` an access that
raises, `val` a present value. -/
inductive Attr (α : Type) where
  | absent : Attr α
  | raising : Attr α
  | val (a : α) : Attr α

/-- A Python value as the extractor observes it: a string, or an opaque
non-string value carrying its truthiness and its `str()` rendering. -/
inductive PyVal where
  | str (s : String) : PyVal
  | other (truthyFlag : Bool) (reprStr : String) : PyVal

/-- Python truthiness of an observed value (a string is truthy when
non-empty). -/
def pyTruthy : PyVal → Bool
  | PyVal.str s => s != ""
  | PyVal.other b _ => b

/-- One entry of an `outputs[0].content` collection (lines 168-176 of
`app.py`): either a dict or an object probed through `text` /
`plain_text` attributes; values may be of any runtime type (`PyVal`),
and the `isinstance` guards of lines 171 and 175 are modelled where they
occur, in `dictKeyHit` and `objPartHit`. -/
inductive CPart where
  | dictP (entries : List (String × PyVal)) : CPart
  | objP (textAttr : Attr PyVal) (plainAttr : Attr PyVal) : CPart

/-- The first element of an `outputs` collection. -/
structure Output where
  content : Attr (List CPart)
  strOut : String

/-- An opaque Python object: its truthiness and its `str()`. -/
structure PyObj where
  isTruthy : Bool
  reprStr : String

/-- The opaque SDK response object, with exactly the attributes that
`extract_text_from_response` probes, plus its full stringification.  A
candidate is represented by its probed text field (line 154 collapses
attribute access and dict lookup into the one value `txt`), which line
156 returns without an `isinstance` check — it need not be a string,
hence `Attr PyVal`. -/
structure Resp where
  candidates : Attr (List (Attr PyVal))
  outputs : Attr (List Output)
  responseAttr : Attr PyObj
  outputAttr : Attr PyObj
  asString : String

/-- Lines 170-172 of `app.py`: probe one dict part under one key — here
the value must pass `isinstance(..., str)` and have non-whitespace
content. -/
def dictKeyHit (entries : List (String × PyVal)) (k : String) : Option String :=
  match entries.lookup k with
  | some (PyVal.str s) => if pyStrip s ≠ "" then some s else none
  | _ => none

/-- Lines 169-172 of `app.py`: scan the keys `text`, `plain_text`,
`content` of a dict part in that order. -/
def findTextKey (entries : List (String × PyVal)) : Option String :=
  match dictKeyHit entries "text" with
  | some t => some t
  | none =>
    match dictKeyHit entries "plain_text" with
    | some t => some t
    | none => dictKeyHit entries "content"

/-- Lines 174-176 of `app.py` applied to one probed object-part value
`txt`: keep it only when truthy, a string, and non-whitespace. -/
def objPartHit : PyVal → Option String
  | PyVal.str t => if t ≠ "" && pyStrip t ≠ "" then some t else none
  | PyVal.other _ _ => none

/-- The part-scanning loop of lines 168-176 of `app.py`.  `Except.error`
models an exception raised while probing a part (which aborts the whole
strategy), `Except.ok none` a completed scan with no text-like entry.
For an object part, `txt` is the first truthy of the `text` and
`plain_text` attributes (the `or` of line 174); a truthy non-string
`txt` fails the `isinstance` test of line 175 and the loop moves on. -/
def scanParts : List CPart → Except Unit (Option String)
  | [] => Except.ok none
  | CPart.dictP entries :: rest =>
    (match findTextKey entries with
     | some t => Except.ok (some t)
     | none => scanParts rest)
  | CPart.objP tx pl :: rest =>
    match tx with
    | Attr.raising => Except.error ()
    | Attr.val v =>
      if pyTruthy v then
        match objPartHit v with
        | some t => Except.ok (some t)
        | none => scanParts rest
      else
        match pl with
        | Attr.raising => Except.error ()
        | Attr.val u =>
          if pyTruthy u then
            match objPartHit u with
            | some t => Except.ok (some t)
            | none => scanParts rest
          else scanParts rest
        | Attr.absent => scanParts rest
    | Attr.absent =>
      match pl with
      | Attr.raising => Except.error ()
      | Attr.val u =>
        if pyTruthy u then
          match objPartHit u with
          | some t => Except.ok (some t)
          | none => scanParts rest
        else scanParts rest
      | Attr.absent => scanParts rest

/-- Strategy 3 of `extract_text_from_response` followed by the absolute
fallback (lines 182-193 of `app.py`): probe the singular `response` then
`output` attribute, stringify a truthy one, and fall back to stringifying
the whole response.  These stages always produce strings. -/
def extractStage3 (r : Resp) : PyVal :=
  match r.responseAttr with
  | Attr.raising => PyVal.str r.asString
  | Attr.val o =>
    if o.isTruthy then
      (if o.reprStr ≠ "" then PyVal.str o.reprStr else PyVal.str r.asString)
    else
      match r.outputAttr with
      | Attr.raising => PyVal.str r.asString
      | Attr.val p =>
        if p.isTruthy then
          (if p.reprStr ≠ "" then PyVal.str p.reprStr else PyVal.str r.asString)
        else PyVal.str r.asString
      | Attr.absent => PyVal.str r.asString
  | Attr.absent =>
    match r.outputAttr with
    | Attr.raising => PyVal.str r.asString
    | Attr.val p =>
      if p.isTruthy then
        (if p.reprStr ≠ "" then PyVal.str p.reprStr else PyVal.str r.asString)
      else PyVal.str r.asString
    | Attr.absent => PyVal.str r.asString

/-- Strategy 2 of `extract_text_from_response` with fallthrough (lines
160-180 of `app.py`): with a non-empty `outputs` collection, scan the
first output's content parts and otherwise stringify that output; any
exception falls through to strategy 3. -/
def extractStage2 (r : Resp) : PyVal :=
  match r.outputs with
  | Attr.val (o :: _) =>
    (match o.content with
     | Attr.raising => extractStage3 r
     | Attr.absent => PyVal.str o.strOut
     | Attr.val parts =>
       match scanParts parts with
       | Except.error _ => extractStage3 r
       | Except.ok (some t) => PyVal.str t
       | Except.ok none => PyVal.str o.strOut)
  | _ => extractStage3 r

/-- `extract_text_from_response` (lines 142-193 of `app.py`): strategy 1
(candidates) with fallthrough into the later stages.  The function is
total and never raises, but line 156 returns the first candidate's truthy
`txt` value without an `isinstance` check, so strategy 1 may hand back a
non-string (`PyVal.other`); every other stage produces a string. -/
def extractTextFromResponse (r : Resp) : PyVal :=
  match r.candidates with
  | Attr.val (Attr.val v :: _) => if pyTruthy v then v else extractStage2 r
  | _ => extractStage2 r

/-- Strategy 1 as a stand-alone strategy: the first candidate's probed
text value, returned unchecked when truthy; unavailable (`none`) on
absence, falsiness or an exception. -/
def strat1 (r : Resp) : Option PyVal :=
  match r.candidates with
  | Attr.val (Attr.val v :: _) => if pyTruthy v then some v else none
  | _ => none

/-- Strategy 2 as a stand-alone strategy: scan the first output's content
parts for a text-like entry, else stringify the first output as a whole;
unavailable on absence of outputs or an exception. -/
def strat2 (r : Resp) : Option String :=
  match r.outputs with
  | Attr.val (o :: _) =>
    (match o.content with
     | Attr.raising => none
     | Attr.absent => some o.strOut
     | Attr.val parts =>
       match scanParts parts with
       | Except.error _ => none
       | Except.ok (some t) => some t
       | Except.ok none => some o.strOut)
  | _ => none

/-- Strategy 3 as a stand-alone strategy: stringify a present, truthy
singular `response` or `output` attribute, when that string is
non-empty. -/
def strat3 (r : Resp) : Option String :=
  match r.responseAttr with
  | Attr.raising => none
  | Attr.val o =>
    if o.isTruthy then (if o.reprStr ≠ "" then some o.reprStr else none)
    else
      match r.outputAttr with
      | Attr.raising => none
      | Attr.val p => if p.isTruthy then (if p.reprStr ≠ "" then some p.reprStr else none) else none
      | Attr.absent => none
  | Attr.absent =>
    match r.outputAttr with
    | Attr.raising => none
    | Attr.val p => if p.isTruthy then (if p.reprStr ≠ "" then some p.reprStr else none) else none
    | Attr.absent => none

/-- The extractor as the cascade of the four strategies tried in their
fixed order, short-circuiting at the first success, with the full
stringification as the always-successful last resort. -/
def extractSpec (r : Resp) : PyVal :=
  match strat1 r with
  | some v => v
  | none =>
    match strat2 r with
    | some t => PyVal.str t
    | none =>
      match strat3 r with
      | some t => PyVal.str t
      | none => PyVal.str r.asString

/-- A list stays unchanged when filtered by membership in itself. -/
theorem filter_contains_self (p : List String) :
    p.filter (fun t => p.contains t) = p := by
  rw [List.filter_eq_self]
  intro a ha
  exact List.elem_iff.mpr ha

/-- C9: for the empty-string input (and for a non-string input, modelled
by `none`), the recovery function fails immediately with the message
`Empty or non-string model output`, before any recovery strategy runs. -/
theorem recovery_empty_input_error :
    cleanModelTextAndExtractJson none = Except.error "Empty or non-string model output" ∧
    cleanModelTextAndExtractJson (some "") = Except.error "Empty or non-string model output" :=
  ⟨rfl, rfl⟩

/-- C10: the MIME guesser always returns an `image/` type; URLs with a
known non-image extension (`.pdf`, `.txt`), an unknown extension, or an
empty URL all yield `image/jpeg`, while a known image extension keeps its
own type. -/
theorem guessMime_always_image :
    (∀ url : String, begWith "image/".toList (guess_mime_from_url url).toList = true) ∧
    guess_mime_from_url "photo.pdf" = "image/jpeg" ∧
    guess_mime_from_url "notes.txt" = "image/jpeg" ∧
    guess_mime_from_url "file.unknownext" = "image/jpeg" ∧
    guess_mime_from_url "" = "image/jpeg" ∧
    guess_mime_from_url "photo.png" = "image/png" := by
  refine ⟨?_, rfl, rfl, rfl, rfl, rfl⟩
  intro url
  unfold guess_mime_from_url
  split
  · decide
  · split
    · split
      · assumption
      · decide
    · decide

/-- C8: the effective tag list is the intersection-with-fallback the spec
describes, and an empty caller-supplied list yields the full process-wide
list. -/
theorem effectiveTags_intersection_fallback :
    (∀ (predefined : List String) (reqTags : Option (List String)),
      effectiveTags predefined reqTags = effectiveTagsSpec predefined reqTags) ∧
    (∀ predefined : List String, effectiveTags predefined (some []) = predefined) := by
  have base : ∀ p : List String,
      (if (p.filter (fun t => p.contains t)).isEmpty then p
       else p.filter (fun t => p.contains t)) = p := by
    intro p
    rw [filter_contains_self]
    split <;> rfl
  constructor
  · intro p r
    match r with
    | none => exact base p
    | some l =>
      unfold effectiveTags effectiveTagsSpec
      by_cases hl : l.isEmpty
      · have : l = [] := List.isEmpty_iff.mp hl
        subst this
        simp only [List.isEmpty_nil, if_true, List.filter_nil]
        rw [filter_contains_self]
        split <;> rfl
      · simp only [hl, if_false, Bool.false_eq_true]
  · intro p
    unfold effectiveTags
    simp only [List.isEmpty_nil, if_true]
    exact base p

/-- C3 counterexample: the two-character text backslash-n is a literal
backslash-n sequence (the spec's marker fires), yet the code attempts no
unescape pass on it — its marker test requires backslash-quote or a
doubled backslash — so the stage's result differs from the spec-described
attempt (which would decode it to a newline). -/
theorem escapeNormalize_backslash_n_counterexample :
    markerSpec "\\n" = true ∧
    markerCode "\\n" = false ∧
    escapeNormalize "\\n" = "\\n" ∧
    escapeNormalizeStepSpec "\\n" = "\n" ∧
    escapeNormalize "\\n" ≠ escapeNormalizeStepSpec "\\n" := by
  refine ⟨rfl, rfl, rfl, rfl, ?_⟩
  intro h
  have h1 : "\\n" = "\n" := by
    calc "\\n" = escapeNormalize "\\n" := rfl
    _ = escapeNormalizeStepSpec "\\n" := h
    _ = "\n" := rfl
  exact absurd h1 (by decide)

/-- C3 (amended): for every text exhibiting the marker the code actually
tests — a backslash-quote, a doubled-backslash-n, or a doubled-backslash-
quote sequence — the escape-normalization stage performs exactly the
spec-described attempt: one unescape pass, stripping one pair of wrapping
quotes, and silently keeping the pre-unescape text when unescaping
throws. -/
theorem escapeNormalize_marker_amended (s : String) (h : markerCode s = true) :
    escapeNormalize s = escapeNormalizeStepSpec s := by
  unfold escapeNormalize escapeNormalizeStepSpec
  rw [h]
  simp

theorem escapeNormalize_marker_witness :
    markerCode "\\\"ok\\\"" = true ∧
    escapeNormalize "\\\"ok\\\"" = escapeNormalizeStepSpec "\\\"ok\\\"" :=
  ⟨rfl, escapeNormalize_marker_amended "\\\"ok\\\"" rfl⟩

/-- The prose-wrapped model output of the spec's brace-scan example. -/
def c2Text : String :=
  "Sure! Here is the result: \x7b\"allowed\": true, \"flags\": \x7b\"spam\": false\x7d, \"suggestedTags\": [\"Wifi\"]\x7d Hope that helps."

/-- C2 counterexample: on the spec's own brace-scan example the recovery
function does not return the embedded object — it fails, because the
non-greedy regex of line 232 stops at the first closing brace, inside the
nested `flags` object, producing an unbalanced candidate. -/
theorem braceScan_prose_counterexample :
    cleanModelTextAndExtractJson (some c2Text) =
      Except.error "Failed to parse JSON candidate" := by
  rfl

/-- C2 (amended): the brace-scan stage selects the span from the first
opening brace to the FIRST closing brace after it, not to the last
reachable one; on the spec's example that span is the unbalanced prefix
ending inside the nested `flags` object, and recovery therefore fails
with a candidate-parse error instead of returning the embedded object. -/
theorem braceScan_first_close_amended :
    (braceScan c2Text.toList).map String.mk =
      some "\x7b\"allowed\": true, \"flags\": \x7b\"spam\": false\x7d" ∧
    cleanModelTextAndExtractJson (some c2Text) =
      Except.error "Failed to parse JSON candidate" := by
  exact ⟨rfl, rfl⟩

/-- The brace scan finds nothing in text without an opening brace. -/
theorem braceScan_of_no_lbrace (cs : List Char) (h : ∀ c ∈ cs, c ≠ lbrace) :
    braceScan cs = none := by
  induction cs with
  | nil => rfl
  | cons c t ih =>
    unfold braceScan
    rw [if_neg (h c (List.mem_cons_self c t))]
    exact ih (fun x hx => h x (List.mem_cons_of_mem c hx))

/-- C7 counterexample: `123` contains no brace, yet recovery does not fail
— the direct-parse stage succeeds on it (any valid JSON scalar is
returned), so "no brace implies RecoveryError" is false as stated. -/
theorem recovery_no_brace_counterexample :
    (∀ c ∈ ("123" : String).toList, c ≠ lbrace) ∧
    cleanModelTextAndExtractJson (some "123") = Except.ok (Json.num 123) := by
  exact ⟨by decide, rfl⟩

/-- C7 (amended): for every non-empty input whose fence-stripped,
escape-normalized form fails the direct JSON parse and contains no
opening brace (the prose example qualifies), recovery fails with
`Unable to extract JSON object from model output`, and the endpoint then
responds 500 with a detail carrying the first 1000 characters of the
extracted text. -/
theorem recovery_no_brace_amended (tags : List String) (t : String)
    (h0 : t ≠ "")
    (h1 : jsonParse (preprocess t) = none)
    (h2 : ∀ c ∈ (preprocess t).toList, c ≠ lbrace) :
    cleanModelTextAndExtractJson (some t) =
      Except.error "Unable to extract JSON object from model output" ∧
    validateTail tags t =
      Except.error (500, "LLM returned non-JSON output. Raw (truncated): " ++
        String.mk (t.toList.take 1000)) := by
  have hb : braceScan (preprocess t).toList = none := braceScan_of_no_lbrace _ h2
  have hc : cleanModelTextAndExtractJson (some t) =
      Except.error "Unable to extract JSON object from model output" := by
    unfold cleanModelTextAndExtractJson
    dsimp only
    rw [if_neg h0]
    simp only [h1, hb]
  refine ⟨hc, ?_⟩
  unfold validateTail
  rw [hc]

theorem recovery_no_brace_witness :
    cleanModelTextAndExtractJson (some "I cannot comply with this request.") =
      Except.error "Unable to extract JSON object from model output" ∧
    validateTail DEFAULT_TAGS "I cannot comply with this request." =
      Except.error (500,
        "LLM returned non-JSON output. Raw (truncated): I cannot comply with this request.") := by
  exact recovery_no_brace_amended DEFAULT_TAGS "I cannot comply with this request."
    (by decide) rfl (by decide)

/-- C1: every element of the sanitized `suggestedTags` is a string member
of the effective tag list; membership is exactly "string element of the
raw list that the tag list contains" (so non-strings and unknown tags are
dropped); a non-list `suggestedTags` field yields the empty list; and the
sanitized output object carries exactly this list. -/
theorem sanitizeSuggested_subset_effectiveTags (tags : List String)
    (fields : List (String × Json)) :
    (∀ t ∈ sanitizeSuggested tags fields, tags.contains t = true) ∧
    (∀ t : String, t ∈ sanitizeSuggested tags fields ↔
      (Json.str t ∈ suggestedRaw fields ∧ tags.contains t = true)) ∧
    (∀ v : Json, lookupField fields "suggestedTags" = some v →
      (∀ l : List Json, v ≠ Json.arr l) → sanitizeSuggested tags fields = []) ∧
    lookupField (sanFields tags fields) "suggestedTags" =
      some (Json.arr ((sanitizeSuggested tags fields).map Json.str)) := by
  have hiff : ∀ t : String, t ∈ sanitizeSuggested tags fields ↔
      (Json.str t ∈ suggestedRaw fields ∧ tags.contains t = true) := by
    intro t
    unfold sanitizeSuggested
    rw [List.mem_filterMap]
    constructor
    · rintro ⟨v, hv, hp⟩
      cases v with
      | str s =>
        simp only [pickTag] at hp
        by_cases hc : tags.contains s = true
        · rw [if_pos hc] at hp
          cases hp
          exact ⟨hv, hc⟩
        · rw [if_neg hc] at hp
          cases hp
      | null => cases hp
      | bool b => cases hp
      | num n => cases hp
      | arr l => cases hp
      | obj l => cases hp
    · rintro ⟨hv, hc⟩
      exact ⟨Json.str t, hv, by simp only [pickTag]; rw [if_pos hc]⟩
  refine ⟨fun t ht => (hiff t).mp ht |>.2, hiff, ?_, rfl⟩
  intro v hv hnl
  unfold sanitizeSuggested suggestedRaw getField
  rw [hv]
  cases v with
  | arr l => exact absurd rfl (hnl l)
  | null => rfl
  | bool b => rfl
  | num n => rfl
  | str s => rfl
  | obj l => rfl

theorem sanitizeSuggested_subset_witness :
    "Wifi" ∈ sanitizeSuggested ["Wifi"]
      [("suggestedTags", Json.arr [Json.str "Wifi", Json.str "Pool", Json.num 3])] ∧
    "Pool" ∉ sanitizeSuggested ["Wifi"]
      [("suggestedTags", Json.arr [Json.str "Wifi", Json.str "Pool", Json.num 3])] := by
  have h := sanitizeSuggested_subset_effectiveTags ["Wifi"]
    [("suggestedTags", Json.arr [Json.str "Wifi", Json.str "Pool", Json.num 3])]
  constructor
  · exact (h.2.1 "Wifi").mpr ⟨List.mem_cons_self _ _, rfl⟩
  · intro hm
    exact absurd (h.1 "Pool" hm) (by decide)

/-- C5: the sanitized `flags` object has exactly the four recognized keys,
each a boolean obtained by truthiness-coercion of the corresponding input
value with default false (so a missing key gives false), unrecognized
keys are absent, a non-object `flags` field behaves as an empty object,
and the sanitized output object carries exactly this flags object. -/
theorem flags_complete (tags : List String) (fields : List (String × Json)) :
    ((flagFields fields).map Prod.fst = fourFlagNames) ∧
    (∀ p ∈ flagFields fields, ∃ b : Bool, p.2 = Json.bool b) ∧
    (∀ k ∈ fourFlagNames, lookupField (flagFields fields) k =
      some (Json.bool (truthy (getField (flagsVal fields) k (Json.bool false))))) ∧
    (∀ k ∈ fourFlagNames, lookupField (flagsVal fields) k = none →
      lookupField (flagFields fields) k = some (Json.bool false)) ∧
    (∀ k : String, k ∉ fourFlagNames → lookupField (flagFields fields) k = none) ∧
    (∀ v : Json, lookupField fields "flags" = some v →
      (∀ l : List (String × Json), v ≠ Json.obj l) → flagsVal fields = []) ∧
    lookupField (sanFields tags fields) "flags" = some (Json.obj (flagFields fields)) := by
  have h3 : ∀ k ∈ fourFlagNames, lookupField (flagFields fields) k =
      some (Json.bool (truthy (getField (flagsVal fields) k (Json.bool false)))) := by
    intro k hk
    unfold fourFlagNames at hk
    fin_cases hk <;> rfl
  refine ⟨rfl, ?_, h3, ?_, ?_, ?_, rfl⟩
  · intro p hp
    unfold flagFields at hp
    fin_cases hp <;> exact ⟨_, rfl⟩
  · intro k hk h
    rw [h3 k hk]
    unfold getField
    rw [h]
    rfl
  · intro k hk
    unfold fourFlagNames at hk
    simp only [List.mem_cons, List.not_mem_nil, or_false, not_or] at hk
    obtain ⟨h1, h2, h3', h4⟩ := hk
    simp only [flagFields, lookupField, beq_iff_eq]
    rw [if_neg (Ne.symm h1), if_neg (Ne.symm h2), if_neg (Ne.symm h3'), if_neg (Ne.symm h4)]
  · intro v hv hnl
    unfold flagsVal getField
    rw [hv]
    cases v with
    | obj l => exact absurd rfl (hnl l)
    | null => rfl
    | bool b => rfl
    | num n => rfl
    | str s => rfl
    | arr l => rfl

theorem flags_complete_witness :
    lookupField (flagsVal [("flags", Json.str "bad")]) "spam" = none ∧
    lookupField (flagFields [("flags", Json.str "bad")]) "spam" = some (Json.bool false) ∧
    flagsVal [("flags", Json.str "bad")] = [] := by
  refine ⟨rfl, ?_, ?_⟩
  · exact (flags_complete [] [("flags", Json.str "bad")]).2.2.2.1 "spam" (by decide) rfl
  · exact (flags_complete [] [("flags", Json.str "bad")]).2.2.2.2.2.1 (Json.str "bad") rfl
      (fun l h => Json.noConfusion h)

/-- Re-filtering the string images of an already-filtered tag list changes
nothing: every kept tag is a string the tag list contains. -/
theorem pickTag_map_str_filterMap (tags : List String) (raw : List Json) :
    ((raw.filterMap (pickTag tags)).map Json.str).filterMap (pickTag tags) =
      raw.filterMap (pickTag tags) := by
  induction raw with
  | nil => rfl
  | cons v rest ih =>
    cases v with
    | str s =>
      by_cases hm : s ∈ tags
      · simp [pickTag, List.elem_iff.mpr hm, hm, List.filterMap_cons, ih]
      · have hc : tags.contains s = false :=
          Bool.eq_false_iff.mpr (fun m => hm (List.elem_iff.mp m))
        simp [pickTag, hc, hm, List.filterMap_cons, ih]
    | null => simp [pickTag, List.filterMap_cons, ih]
    | bool b => simp [pickTag, List.filterMap_cons, ih]
    | num n => simp [pickTag, List.filterMap_cons, ih]
    | arr l => simp [pickTag, List.filterMap_cons, ih]
    | obj l => simp [pickTag, List.filterMap_cons, ih]

/-- A recovered JSON dict already shaped like a valid `ValidationDecision`
for the tag list `tags`: boolean `allowed`, string-or-null `reason`, a
`flags` object holding the four recognized boolean keys, and
`suggestedTags` a list of strings the tag list contains. -/
def validDecisionShape (tags : List String) (fields : List (String × Json)) : Prop :=
  (∃ b : Bool, lookupField fields "allowed" = some (Json.bool b)) ∧
  (∃ r : Json, lookupField fields "reason" = some r ∧
    (r = Json.null ∨ ∃ s : String, r = Json.str s)) ∧
  (∃ fl : List (String × Json), lookupField fields "flags" = some (Json.obj fl) ∧
    ∀ k ∈ fourFlagNames, ∃ b : Bool, lookupField fl k = some (Json.bool b)) ∧
  (∃ l : List Json, lookupField fields "suggestedTags" = some (Json.arr l) ∧
    ∀ v ∈ l, ∃ s : String, v = Json.str s ∧ tags.contains s = true)

/-- C4: sanitization is idempotent — on every valid
`ValidationDecision`-shaped input, re-sanitizing the sanitized output
yields the same output. -/
theorem sanitize_idempotent (tags : List String) (fields : List (String × Json))
    (h : validDecisionShape tags fields) :
    sanFields tags (sanFields tags fields) = sanFields tags fields := by
  have h4 : sanitizeSuggested tags (sanFields tags fields) = sanitizeSuggested tags fields := by
    show ((((suggestedRaw fields).filterMap (pickTag tags)).map Json.str).filterMap (pickTag tags))
        = (suggestedRaw fields).filterMap (pickTag tags)
    exact pickTag_map_str_filterMap tags (suggestedRaw fields)
  show [("allowed", Json.bool (truthy (getField (sanFields tags fields) "allowed" (Json.bool false)))),
        ("reason", getField (sanFields tags fields) "reason" Json.null),
        ("flags", Json.obj (flagFields (sanFields tags fields))),
        ("suggestedTags", Json.arr ((sanitizeSuggested tags (sanFields tags fields)).map Json.str))]
      = sanFields tags fields
  rw [h4]
  rfl

theorem sanitize_idempotent_witness :
    validDecisionShape ["Wifi"]
      [("allowed", Json.bool true), ("reason", Json.null),
       ("flags", Json.obj [("inappropriate", Json.bool false), ("spam", Json.bool true),
         ("advertisement", Json.bool false), ("mismatch", Json.bool false)]),
       ("suggestedTags", Json.arr [Json.str "Wifi"])] ∧
    sanFields ["Wifi"]
      (sanFields ["Wifi"]
        [("allowed", Json.bool true), ("reason", Json.null),
         ("flags", Json.obj [("inappropriate", Json.bool false), ("spam", Json.bool true),
           ("advertisement", Json.bool false), ("mismatch", Json.bool false)]),
         ("suggestedTags", Json.arr [Json.str "Wifi"])]) =
      sanFields ["Wifi"]
        [("allowed", Json.bool true), ("reason", Json.null),
         ("flags", Json.obj [("inappropriate", Json.bool false), ("spam", Json.bool true),
           ("advertisement", Json.bool false), ("mismatch", Json.bool false)]),
         ("suggestedTags", Json.arr [Json.str "Wifi"])] := by
  have hs : validDecisionShape ["Wifi"]
      [("allowed", Json.bool true), ("reason", Json.null),
       ("flags", Json.obj [("inappropriate", Json.bool false), ("spam", Json.bool true),
         ("advertisement", Json.bool false), ("mismatch", Json.bool false)]),
       ("suggestedTags", Json.arr [Json.str "Wifi"])] := by
    refine ⟨⟨true, rfl⟩, ⟨Json.null, rfl, Or.inl rfl⟩, ?_, ?_⟩
    · refine ⟨_, rfl, ?_⟩
      intro k hk
      unfold fourFlagNames at hk
      fin_cases hk
      · exact ⟨false, rfl⟩
      · exact ⟨true, rfl⟩
      · exact ⟨false, rfl⟩
      · exact ⟨false, rfl⟩
    · refine ⟨_, rfl, ?_⟩
      intro v hv
      fin_cases hv
      exact ⟨"Wifi", rfl, rfl⟩
  exact ⟨hs, sanitize_idempotent _ _ hs⟩

/-- Strategy 3 plus final fallback agrees with the option-valued
stand-alone strategy. -/
theorem extractStage3_eq (r : Resp) :
    extractStage3 r =
      (match strat3 r with
       | some t => PyVal.str t
       | none => PyVal.str r.asString) := by
  obtain ⟨cs, os, ra, oa, s⟩ := r
  unfold extractStage3 strat3
  dsimp only
  cases ra with
  | raising => rfl
  | absent =>
    cases oa with
    | raising => rfl
    | absent => rfl
    | val p => by_cases ht : p.isTruthy <;> by_cases hr : p.reprStr ≠ "" <;> simp [ht, hr]
  | val o =>
    by_cases ht : o.isTruthy
    · by_cases hr : o.reprStr ≠ "" <;> simp [ht, hr]
    · cases oa with
      | raising => simp [ht]
      | absent => simp [ht]
      | val p =>
        by_cases ht2 : p.isTruthy <;> by_cases hr2 : p.reprStr ≠ "" <;> simp [ht, ht2, hr2]

/-- Strategy 2 with fallthrough agrees with the option-valued stand-alone
strategy. -/
theorem extractStage2_eq (r : Resp) :
    extractStage2 r =
      (match strat2 r with
       | some t => PyVal.str t
       | none => extractStage3 r) := by
  obtain ⟨cs, os, ra, oa, s⟩ := r
  unfold extractStage2 strat2
  dsimp only
  cases os with
  | raising => rfl
  | absent => rfl
  | val lst =>
    cases lst with
    | nil => rfl
    | cons o rest =>
      dsimp only
      cases hc : o.content with
      | raising => rfl
      | absent => rfl
      | val parts =>
        dsimp only
        cases hsp : scanParts parts with
        | error u => rfl
        | ok oo =>
          cases oo with
          | some t => rfl
          | none => rfl

/-- Strategy 1 with fallthrough agrees with the option-valued stand-alone
strategy. -/
theorem extractStage1_eq (r : Resp) :
    extractTextFromResponse r =
      (match strat1 r with | some v => v | none => extractStage2 r) := by
  obtain ⟨cs, os, ra, oa, s⟩ := r
  unfold extractTextFromResponse strat1
  dsimp only
  cases cs with
  | raising => rfl
  | absent => rfl
  | val lst =>
    cases lst with
    | nil => rfl
    | cons c rest =>
      cases c with
      | raising => rfl
      | absent => rfl
      | val v => by_cases ht : pyTruthy v <;> simp [ht]

/-- C6 counterexample: a response whose first candidate's `text` field is
a truthy non-string (a Python `123`, say) makes the extractor return that
value unchanged — line 156 returns `txt` without an `isinstance` check —
so the extractor does not return a string for every response object. -/
theorem extract_nonstring_counterexample :
    extractTextFromResponse
      (Resp.mk (Attr.val [Attr.val (PyVal.other true "123")])
        Attr.absent Attr.absent Attr.absent "whole-response") =
      PyVal.other true "123" ∧
    (∀ s : String,
      extractTextFromResponse
        (Resp.mk (Attr.val [Attr.val (PyVal.other true "123")])
          Attr.absent Attr.absent Attr.absent "whole-response") ≠ PyVal.str s) := by
  refine ⟨rfl, ?_⟩
  intro s h
  exact PyVal.noConfusion h

/-- C6 (amended): the extractor is total and never raises, and equals the
cascade of the four strategies in their fixed order; a raising attribute
in one strategy disables only that strategy; the result is a string
whenever strategy 1 does not fire (strategies 2-4 all stringify), and it
is the full stringification of the response when the first three
strategies yield nothing.  Only strategy 1 may return a non-string: it
hands back the first candidate's truthy text value unchecked. -/
theorem extract_strategy_cascade (r : Resp) :
    extractTextFromResponse r = extractSpec r ∧
    (∀ v : PyVal, strat1 r = some v → extractTextFromResponse r = v) ∧
    (strat1 r = none → ∃ s : String, extractTextFromResponse r = PyVal.str s) ∧
    (r.candidates = Attr.raising → strat1 r = none) ∧
    (r.outputs = Attr.raising → strat2 r = none) ∧
    (r.responseAttr = Attr.raising → strat3 r = none) ∧
    (strat1 r = none → strat2 r = none → strat3 r = none →
      extractTextFromResponse r = PyVal.str r.asString) := by
  have e1 := extractStage1_eq r
  have e2 := extractStage2_eq r
  have e3 := extractStage3_eq r
  refine ⟨?_, ?_, ?_, ?_, ?_, ?_, ?_⟩
  · rw [e1]
    unfold extractSpec
    cases h1 : strat1 r with
    | some v => rfl
    | none =>
      dsimp only
      rw [e2]
      cases h2 : strat2 r with
      | some t => rfl
      | none =>
        dsimp only
        rw [e3]
  · intro v h
    rw [e1, h]
  · intro h
    rw [e1, h]
    dsimp only
    rw [e2]
    cases h2 : strat2 r with
    | some t => exact ⟨t, rfl⟩
    | none =>
      dsimp only
      rw [e3]
      cases h3 : strat3 r with
      | some t => exact ⟨t, rfl⟩
      | none => exact ⟨r.asString, rfl⟩
  · intro h
    unfold strat1
    rw [h]
  · intro h
    unfold strat2
    rw [h]
  · intro h
    unfold strat3
    rw [h]
  · intro n1 n2 n3
    rw [e1, n1]
    dsimp only
    rw [e2, n2]
    dsimp only
    rw [e3, n3]

theorem extract_cascade_witness :
    strat1 (Resp.mk Attr.raising Attr.raising Attr.raising Attr.raising "whole-response") = none ∧
    strat2 (Resp.mk Attr.raising Attr.raising Attr.raising Attr.raising "whole-response") = none ∧
    strat3 (Resp.mk Attr.raising Attr.raising Attr.raising Attr.raising "whole-response") = none ∧
    extractTextFromResponse
      (Resp.mk Attr.raising Attr.raising Attr.raising Attr.raising "whole-response") =
      PyVal.str "whole-response" := by
  refine ⟨rfl, rfl, rfl, ?_⟩
  exact (extract_strategy_cascade _).2.2.2.2.2.2 rfl rfl rfl
